import Mathlib

/-!
Shallow embedding of the content-addressable blob store
(`pull_tool/pkg/blobstore/blobstore.go`) and of the pull repository rule
(`_pull_impl` and the download helpers in the Starlark sources), together
with proofs about reference resolution, manifest-graph walking and layer
materialization.

Bytes are modelled as `List Nat`; the SHA-256 hex function is an arbitrary
parameter `hash : List Nat → String` (the code never relies on properties
of SHA-256 beyond being a function of the content). The filesystem owned
by the blob store is an association list from path keys (the hex file
names under `<blobDir>/sha256/`) to file contents.
-/

namespace RulesImg

/-- The characters of the digest marker `"sha256:"` that Go's
`strings.TrimPrefix` and Starlark's `removeprefix`/`startswith` operate on. -/
def sha256Marker : List Char := "sha256:".data

/-- Go `strings.TrimPrefix(digest, "sha256:")` / Starlark
`digest.removeprefix("sha256:")`: drop the marker when present,
otherwise return the string unchanged. -/
def stripSha256 (d : String) : String :=
  if sha256Marker.isPrefixOf d.data then ⟨d.data.drop 7⟩ else d

/-- Starlark `digest.startswith("sha256:")`. -/
def startsWithSha256 (d : String) : Bool :=
  sha256Marker.isPrefixOf d.data

/-- Whitespace characters removed by Starlark `str.strip()`. -/
def isStripSpace (c : Char) : Bool :=
  c == ' ' || c == '\t' || c == '\n' || c == '\r'

/-- Starlark `str.strip()`: remove leading and trailing whitespace. -/
def strip (s : String) : String :=
  ⟨((s.data.dropWhile isStripSpace).reverse.dropWhile isStripSpace).reverse⟩

/-! ## Blob store (`blobstore.go`) -/

/-- Error taxonomy of the blob store operations, named after the spec's
error classes. In the Go code these are `fmt.Errorf` values; the
branching of the code determines which class is reported. -/
inductive BlobError where
  | notFound
  | digestMismatch
deriving DecidableEq, Repr

/-- Filesystem state owned by one `Store`: the files under
`<blobDir>/sha256/` as an association list from file name (hex digest
component) to content, plus the contents of temp files currently present
in the directory. -/
structure StoreState where
  blobs : List (String × List Nat)
  temps : List (List Nat)
deriving DecidableEq, Repr

def emptyStore : StoreState := ⟨[], []⟩

def findBlob (l : List (String × List Nat)) (k : String) : Option (List Nat) :=
  match l with
  | [] => none
  | (k', v) :: rest => if k' = k then some v else findBlob rest k

def eraseBlob (l : List (String × List Nat)) (k : String) : List (String × List Nat) :=
  l.filter (fun p => p.1 != k)

/-- Overwrite semantics of `os.WriteFile`/`os.Rename` onto a path. -/
def setBlob (l : List (String × List Nat)) (k : String) (v : List Nat) :
    List (String × List Nat) :=
  (k, v) :: eraseBlob l k

/-- The digest string the Go code computes:
`"sha256:" + hex.EncodeToString(hasher.Sum(nil))`. -/
def digestOf (hash : List Nat → String) (data : List Nat) : String :=
  "sha256:" ++ hash data

/-- `blobPath`: strips a leading `"sha256:"` and uses the rest as the file
name under `<blobDir>/sha256/`. -/
def blobPath (digest : String) : String := stripSha256 digest

/-- `Store.Exists`: a stat on the blob path only. -/
def existsBlob (st : StoreState) (digest : String) : Bool :=
  (findBlob st.blobs (blobPath digest)).isSome

/-- `Store.WriteSmall`: compute the digest of `data`; if a blob of that
digest already exists return it unchanged, otherwise write the buffer to
the final path. Returns the digest. -/
def writeSmall (hash : List Nat → String) (st : StoreState) (data : List Nat) :
    String × StoreState :=
  let digest := digestOf hash data
  if existsBlob st digest then (digest, st)
  else (digest, { st with blobs := setBlob st.blobs (blobPath digest) data })

/-- Folding `WriteSmall` over a list of buffers. -/
def writeMany (hash : List Nat → String) (st : StoreState) (ds : List (List Nat)) :
    StoreState :=
  ds.foldl (fun s d => (writeSmall hash s d).2) st

/-- `Store.WriteSmallWithDigest`: return success when the blob already
exists (without looking at `data`); otherwise recompute the digest of
`data`, fail with a digest mismatch if it differs from the claimed
digest, and write to the final path if it agrees. -/
def writeSmallWithDigest (hash : List Nat → String) (st : StoreState)
    (digest : String) (data : List Nat) : Except BlobError Unit × StoreState :=
  if existsBlob st digest then (.ok (), st)
  else if digestOf hash data = digest then
    (.ok (), { st with blobs := setBlob st.blobs (blobPath digest) data })
  else (.error .digestMismatch, st)

/-- `Store.WriteLarge`: if the blob exists, drain the reader and return
success without validation. Otherwise write the reader's content to a
temp file while hashing it; on digest mismatch the deferred cleanup
removes the temp file and the error is returned; on a match the temp
file is renamed onto the final path (and the deferred remove of the temp
path is then a no-op). The reader is modelled by its full content. -/
def writeLarge (hash : List Nat → String) (st : StoreState) (digest : String)
    (content : List Nat) : Except BlobError Unit × StoreState :=
  if existsBlob st digest then (.ok (), st)
  else if digestOf hash content = digest then
    (.ok (), { st with blobs := setBlob st.blobs (blobPath digest) content })
  else (.error .digestMismatch, st)

/-- `Store.ReadSmall`: read the file, recompute the digest; on mismatch
remove the corrupted file before returning the error; when the file is
absent fail with not-found. -/
def readSmall (hash : List Nat → String) (st : StoreState) (digest : String) :
    Except BlobError (List Nat) × StoreState :=
  match findBlob st.blobs (blobPath digest) with
  | none => (.error .notFound, st)
  | some data =>
    if digestOf hash data = digest then (.ok data, st)
    else (.error .digestMismatch,
      { st with blobs := eraseBlob st.blobs (blobPath digest) })

/-- Reading the validated stream returned by `Store.Open` to end of
stream: the `validatingReader` hashes every delivered byte and compares
the final hash to the expected digest at EOF; on mismatch it returns the
error without touching the stored file. -/
def openReadAll (hash : List Nat → String) (st : StoreState) (digest : String) :
    Except BlobError (List Nat) × StoreState :=
  match findBlob st.blobs (blobPath digest) with
  | none => (.error .notFound, st)
  | some data =>
    if digestOf hash data = digest then (.ok data, st)
    else (.error .digestMismatch, st)

/-! ## Reference resolution (`_pull_impl`, lines 463-484) and digest
learning (`learn_digest_from_tag`) -/

/-- Error taxonomy of the pull pipeline, named after the spec's classes. -/
inductive PullError where
  | invalidReference
  | learnFailed
  | unsupportedMediaType
  | nestedIndexUnsupported
  | missingConfigDigest
deriving DecidableEq, Repr

/-- Validity check on the caller-supplied `digest` attribute:
`len(digest) == 71` and `digest.startswith("sha256:")`. -/
def validAttrDigest (d : String) : Bool :=
  d.data.length == 71 && startsWithSha256 d

/-- The reference the pull uses for all subsequent fetches, together with
the final `have_valid_digest` flag. -/
structure ResolvedReference where
  reference : String
  isDigest : Bool
deriving DecidableEq, Repr

/-- Reference resolution of `_pull_impl`: the caller-supplied digest is
valid iff it is 71 characters and `"sha256:"`-prefixed; when it is not
and tag-only pulls are allowed, a digest learned from the tag (modelled
by `learned`, which is the truthy result of `learn_digest_from_tag` when
the roundtrip produced one) replaces it and is treated as valid; the
reference is the digest when valid, otherwise the tag; an empty
reference fails. -/
def resolveReference (digestAttr tagAttr : String) (allowTag : Bool)
    (learned : Option String) : Except PullError ResolvedReference :=
  let valid0 := validAttrDigest digestAttr
  let resolved :=
    if !valid0 && allowTag then
      match learned with
      | some ld => if 0 < ld.data.length then (ld, true) else (digestAttr, valid0)
      | none => (digestAttr, valid0)
    else (digestAttr, valid0)
  let reference := if resolved.2 then resolved.1 else tagAttr
  if reference.data.length == 0 then .error .invalidReference
  else .ok ⟨reference, resolved.2⟩

/-- The `img_tool` branch of `learn_digest_from_tag`: a non-zero exit of
the external tool is a hard failure; otherwise the tool's stdout is
trimmed and accepted as the learned digest whenever it is non-empty and
starts with `"sha256:"`, and rejected otherwise. -/
def learnDigestFromTagImgTool (returnCode : Int) (stdout : String) :
    Except PullError String :=
  if returnCode ≠ 0 then .error .learnFailed
  else
    let digest := strip stdout
    if 0 < digest.data.length ∧ startsWithSha256 digest = true then .ok digest
    else .error .learnFailed

/-! ## Manifest graph walking (`_pull_impl`, lines 498-575) -/

def MEDIA_TYPE_INDEX : String := "application/vnd.oci.image.index.v1+json"
def DOCKER_MANIFEST_LIST_V2 : String :=
  "application/vnd.docker.distribution.manifest.list.v2+json"
def MEDIA_TYPE_MANIFEST : String := "application/vnd.oci.image.manifest.v1+json"
def DOCKER_MANIFEST_V2 : String :=
  "application/vnd.docker.distribution.manifest.v2+json"

/-- A platform dict inside an index entry or a config blob; absent string
fields decode to `""` (the code reads them with `.get(_, "")`). -/
structure PlatformInfo where
  os : String := ""
  architecture : String := ""
deriving DecidableEq, Repr

/-- One element of an index's `manifests` list. `mediaType` is read with
`.get("mediaType")` (may be absent); `platform` is read with
`.get("platform", {})` and an absent or empty dict is falsy, modelled as
`none`. -/
structure ManifestEntry where
  mediaType : Option String := none
  digest : String
  platform : Option PlatformInfo := none
deriving DecidableEq, Repr

/-- A decoded JSON blob, as one generic record covering the fields the
walker reads from indexes (`manifests`), manifests (`config.digest`,
`layers`) and config blobs (`os`, `architecture`). -/
structure BlobJson where
  mediaType : Option String := none
  manifests : List ManifestEntry := []
  configDigest : Option String := none
  layers : List String := []
  os : String := ""
  architecture : String := ""
deriving DecidableEq, Repr

/-- Modelled from the spec: `get_media_type` (loaded from
`//img/private:manifest_media_type.bzl`, which is not under `src/`)
classifies a decoded blob by its media type; per §4.5 the walker decodes
the blob as JSON and reads its `mediaType`. -/
def getMediaType (b : BlobJson) : Option String := b.mediaType

def isIndexType (mt : Option String) : Bool :=
  mt == some MEDIA_TYPE_INDEX || mt == some DOCKER_MANIFEST_LIST_V2

def isManifestType (mt : Option String) : Bool :=
  mt == some MEDIA_TYPE_MANIFEST || mt == some DOCKER_MANIFEST_V2

/-- Modelled from the spec: bazel-skylib `sets` (loaded from
`@bazel_skylib//lib:sets.bzl`, not under `src/`) are dict-backed;
`sets.insert` adds a key if absent and `sets.to_list` returns the keys
in insertion order without duplicates. -/
def insertSet (l : List String) (x : String) : List String :=
  if x ∈ l then l else l ++ [x]

/-- Accumulated observable effects of the walk: the keys of the `data`
dict (in insertion order), `sets.to_list(layer_digests)`,
`sets.to_list(platforms_set)`, and the logs of child-manifest and
config-blob downloads in the order they are issued. -/
structure WalkAcc where
  dataKeys : List String
  layerDigests : List String
  platforms : List String
  manifestFetches : List String
  configFetches : List String
deriving DecidableEq, Repr

def initAcc (rootDigest : String) : WalkAcc :=
  ⟨[rootDigest], [], [], [], []⟩

/-- One iteration of the per-entry loop of `_pull_impl` (lines 524-558).
An entry whose media type is an index type fails with the nested-index
error before any further download; entries that are not manifest-typed
are skipped (`continue`); for an index root the child manifest is
downloaded and the platform is taken from the index entry when `os` and
`architecture` are non-empty and recognized by the constraint `table`;
the referenced config blob is downloaded; for a manifest root (and only
then) the platform is taken from the config blob; every layer digest is
inserted into the de-duplicated layer set. -/
def entryStep (table : String → String → Bool) (fetch : String → BlobJson)
    (is_index : Bool) (rootBlob : BlobJson) (e : ManifestEntry)
    (acc : WalkAcc) : WalkAcc × Except PullError Unit :=
  if isIndexType e.mediaType then (acc, .error .nestedIndexUnsupported)
  else if !(isManifestType e.mediaType) then (acc, .ok ())
  else
    let step :=
      if is_index then
        let acc := { acc with
          dataKeys := insertSet acc.dataKeys e.digest,
          manifestFetches := acc.manifestFetches ++ [e.digest],
          platforms :=
            match e.platform with
            | some p =>
              if p.os != "" && p.architecture != "" && table p.os p.architecture then
                insertSet acc.platforms (p.os ++ "_" ++ p.architecture)
              else acc.platforms
            | none => acc.platforms }
        (fetch e.digest, acc)
      else (rootBlob, acc)
    match step.1.configDigest with
    | none => (step.2, .error .missingConfigDigest)
    | some cd =>
      let cblob := fetch cd
      let acc := { step.2 with
        dataKeys := insertSet step.2.dataKeys cd,
        configFetches := step.2.configFetches ++ [cd] }
      let acc :=
        if !is_index then
          if cblob.os != "" && cblob.architecture != "" && table cblob.os cblob.architecture then
            { acc with platforms := insertSet acc.platforms (cblob.os ++ "_" ++ cblob.architecture) }
          else acc
        else acc
      ({ acc with layerDigests := step.1.layers.foldl insertSet acc.layerDigests }, .ok ())

/-- The per-entry loop of `_pull_impl`: run `entryStep` over the entries
in order, stopping at the first failure. -/
def processEntries (table : String → String → Bool) (fetch : String → BlobJson)
    (is_index : Bool) (rootBlob : BlobJson) (entries : List ManifestEntry)
    (acc : WalkAcc) : WalkAcc × Except PullError Unit :=
  match entries with
  | [] => (acc, .ok ())
  | e :: rest =>
    match entryStep table fetch is_index rootBlob e acc with
    | (acc', .ok _) => processEntries table fetch is_index rootBlob rest acc'
    | (acc', .error err) => (acc', .error err)

/-- The walk of `_pull_impl` from a resolved digest reference: download
the root blob, classify its media type into index or manifest (any other
value is unsupported), and run the per-entry loop — over the index's
`manifests` for an index root, or over the synthetic single entry for a
manifest root. `fetch` maps a digest to the decoded blob the registry
serves for it. -/
def walkPull (table : String → String → Bool) (fetch : String → BlobJson)
    (rootDigest : String) : WalkAcc × Except PullError Unit :=
  let rootBlob := fetch rootDigest
  let mt := getMediaType rootBlob
  if isIndexType mt then
    processEntries table fetch true rootBlob rootBlob.manifests (initAcc rootDigest)
  else if isManifestType mt then
    processEntries table fetch false rootBlob
      [{ mediaType := some MEDIA_TYPE_MANIFEST, digest := rootDigest }]
      (initAcc rootDigest)
  else (initAcc rootDigest, .error .unsupportedMediaType)

/-! ## Layer materialization (`_pull_impl` lines 565-575, `download_layers`,
`download_blob`, `_check_existing_blob`) -/

inductive LayerHandling where
  | shallow
  | eager
  | lazy
deriving DecidableEq, Repr

/-- The network fetches issued by `download_layers` over a list of layer
digests: for each digest, `download_blob` first short-circuits through
`_check_existing_blob` — a digest string shorter than 64 characters is
treated as invalid (no existence check) and a blob already present at
`blobs/sha256/<stripped digest>` is used as-is without any network
fetch; otherwise the blob is fetched and written at that path. -/
def downloadLayersLog (existing : List String) (digests : List String) :
    List String :=
  match digests with
  | [] => []
  | d :: rest =>
    if decide (64 ≤ d.data.length) && existing.contains (stripSha256 d) then
      downloadLayersLog existing rest
    else
      d :: downloadLayersLog (existing ++ [stripSha256 d]) rest

/-- Result of one pull: the walker's accumulator plus the log of layer
fetches issued by the materialization phase. -/
structure PullOutcome where
  acc : WalkAcc
  layerFetches : List String
deriving DecidableEq, Repr

/-- The pull pipeline after reference resolution: walk the manifest
graph (downloading every manifest and config), then apply the layer
handling policy — `eager` downloads the de-duplicated layer set through
`download_layers` (with the manifests and configs already on disk under
`blobs/sha256/`), while `shallow` and `lazy` issue no layer downloads
(lazy only records deferred work items in the generated build file). -/
def pullImpl (table : String → String → Bool) (fetch : String → BlobJson)
    (layer_handling : LayerHandling) (rootDigest : String) :
    Except PullError PullOutcome :=
  match walkPull table fetch rootDigest with
  | (_, .error e) => .error e
  | (acc, .ok ()) =>
    let existing := acc.dataKeys.map stripSha256
    let lf :=
      match layer_handling with
      | .eager => downloadLayersLog existing acc.layerDigests
      | .shallow => []
      | .lazy => []
    .ok ⟨acc, lf⟩

/-! ### Walker helper definitions and lemmas -/

/-- The platform key an index entry contributes to the platform set, if
any: `"{os}_{arch}"` when the entry carries a platform with non-empty
`os` and `architecture` recognized by the constraint table. -/
def entryPlatformKey (table : String → String → Bool) (e : ManifestEntry) :
    Option String :=
  match e.platform with
  | some p =>
    if p.os != "" && p.architecture != "" && table p.os p.architecture then
      some (p.os ++ "_" ++ p.architecture)
    else none
  | none => none

/-- The platform set an index root accumulates: the keys contributed by
its manifest-typed entries, inserted in order. -/
def platformFold (table : String → String → Bool) (l : List ManifestEntry)
    (pl : List String) : List String :=
  ((l.filter (fun e => isManifestType e.mediaType)).filterMap
    (entryPlatformKey table)).foldl insertSet pl

/-! ## Concrete instances used by witnesses and counterexamples -/

/-- A concrete stand-in hex function: `[1]` hashes to `"aa"`, everything
else to `"bb"`. -/
def hashFlat : List Nat → String := fun l => if l = [1] then "aa" else "bb"

/-- A store holding one corrupted blob: the file named `"aa"` holds
content `[2]`, whose hash is `"bb"`. -/
def stCorrupt : StoreState := ⟨[("aa", [2])], []⟩

/-- A store holding one valid blob `"aa"` with content `[1]`. -/
def stValid : StoreState := ⟨[("aa", [1])], []⟩

/-- The platform-constraint table used in concrete scenarios: recognizes
linux/amd64 and linux/arm64. -/
def tableLinux : String → String → Bool := fun os arch =>
  os == "linux" && (arch == "amd64" || arch == "arm64")

/-- A registry serving an index whose single child-manifest entry
carries no platform; the child's config blob names linux/amd64. -/
def fetchNoPlat : String → BlobJson := fun d =>
  if d = "idx" then
    { mediaType := some MEDIA_TYPE_INDEX,
      manifests := [{ mediaType := some MEDIA_TYPE_MANIFEST, digest := "m1" }] }
  else if d = "m1" then
    { mediaType := some MEDIA_TYPE_MANIFEST, configDigest := some "c1" }
  else { os := "linux", architecture := "amd64" }

/-- A registry serving an index with two child manifests for linux/amd64
and linux/arm64, each with 2 layers, sharing layer `"l2"`. -/
def fetchTwoArch : String → BlobJson := fun d =>
  if d = "idx" then
    { mediaType := some MEDIA_TYPE_INDEX,
      manifests := [
        { mediaType := some MEDIA_TYPE_MANIFEST, digest := "m1",
          platform := some { os := "linux", architecture := "amd64" } },
        { mediaType := some MEDIA_TYPE_MANIFEST, digest := "m2",
          platform := some { os := "linux", architecture := "arm64" } }] }
  else if d = "m1" then
    { mediaType := some MEDIA_TYPE_MANIFEST, configDigest := some "c1",
      layers := ["l1", "l2"] }
  else if d = "m2" then
    { mediaType := some MEDIA_TYPE_MANIFEST, configDigest := some "c2",
      layers := ["l2", "l3"] }
  else { os := "linux", architecture := "amd64" }

/-- The walk result for `fetchTwoArch` from root `"idx"`. -/
def accTwoArch : WalkAcc :=
  ⟨["idx", "m1", "c1", "m2", "c2"], ["l1", "l2", "l3"],
   ["linux_amd64", "linux_arm64"], ["m1", "m2"], ["c1", "c2"]⟩

/-- A registry serving an index whose second entry is itself an index. -/
def fetchNested : String → BlobJson := fun d =>
  if d = "idx" then
    { mediaType := some MEDIA_TYPE_INDEX,
      manifests := [
        { mediaType := some MEDIA_TYPE_MANIFEST, digest := "m1" },
        { mediaType := some MEDIA_TYPE_INDEX, digest := "nested" },
        { mediaType := some MEDIA_TYPE_MANIFEST, digest := "m2" }] }
  else if d = "m1" then
    { mediaType := some MEDIA_TYPE_MANIFEST, configDigest := some "c1",
      layers := ["l1"] }
  else if d = "m2" then
    { mediaType := some MEDIA_TYPE_MANIFEST, configDigest := some "c2",
      layers := ["l2"] }
  else { os := "linux", architecture := "amd64" }

/-- The accumulator after processing the entries before the nested-index
entry of `fetchNested`. -/
def accNestedPre : WalkAcc := ⟨["idx", "m1", "c1"], ["l1"], [], ["m1"], ["c1"]⟩

/-- A 71-character string that does not start with `"sha256:"`. -/
def allA71 : String := ⟨List.replicate 71 'a'⟩

/-! ## Helper lemmas -/

theorem stripSha256_append (s : String) : stripSha256 ("sha256:" ++ s) = s := by
  have hdata : ("sha256:" ++ s).data = sha256Marker ++ s.data := String.data_append _ _
  have hpre : sha256Marker.isPrefixOf ("sha256:" ++ s).data = true := by
    rw [hdata, List.isPrefixOf_iff_prefix]
    exact List.prefix_append _ _
  have hlen : sha256Marker.length = 7 := by decide
  unfold stripSha256
  rw [hpre, if_pos rfl, hdata]
  have : (sha256Marker ++ s.data).drop 7 = s.data := by
    rw [← hlen]; exact List.drop_left _ _
  rw [this]

theorem blobPath_marker (s : String) : blobPath ("sha256:" ++ s) = s :=
  stripSha256_append s

/-! ### Blob store helper lemmas -/

theorem findBlob_setBlob_self (l : List (String × List Nat)) (k : String) (v : List Nat) :
    findBlob (setBlob l k v) k = some v := by
  simp [setBlob, findBlob]

theorem findBlob_filter_none (l : List (String × List Nat)) (k : String)
    (p : String × List Nat → Bool) (h : findBlob l k = none) :
    findBlob (l.filter p) k = none := by
  induction l with
  | nil => simp [findBlob]
  | cons hd tl ih =>
    obtain ⟨k', v⟩ := hd
    by_cases hk : k' = k
    · subst hk
      simp [findBlob] at h
    · simp only [findBlob, if_neg hk] at h
      by_cases hp : p (k', v)
      · simp only [List.filter_cons, hp, findBlob, if_neg hk]
        exact ih h
      · simp only [List.filter_cons, hp]
        exact ih h

theorem findBlob_eraseBlob_self (l : List (String × List Nat)) (k : String) :
    findBlob (eraseBlob l k) k = none := by
  induction l with
  | nil => simp [eraseBlob, findBlob]
  | cons hd tl ih =>
    obtain ⟨k', v⟩ := hd
    by_cases hk : k' = k
    · subst hk
      simpa [eraseBlob, List.filter_cons] using ih
    · have hne : (k' != k) = true := by simp [bne_iff_ne, hk]
      simp only [eraseBlob, List.filter_cons, hne, findBlob, if_neg hk]
      simpa [eraseBlob] using ih

theorem findBlob_writeMany_none (hash : List Nat → String) (ds : List (List Nat))
    (st : StoreState) (k : String)
    (h0 : findBlob st.blobs k = none) (hk : k ∉ ds.map hash) :
    findBlob (writeMany hash st ds).blobs k = none := by
  induction ds generalizing st with
  | nil => simpa [writeMany]
  | cons d rest ih =>
    simp only [List.map_cons, List.mem_cons, not_or] at hk
    have hstep : findBlob ((writeSmall hash st d).2).blobs k = none := by
      unfold writeSmall
      by_cases he : existsBlob st (digestOf hash d)
      · simpa [he]
      · simp only [he, Bool.false_eq_true, if_false]
        have hpath : blobPath (digestOf hash d) = hash d := by
          unfold blobPath digestOf
          exact stripSha256_append _
        simp only [hpath, setBlob, findBlob]
        rw [if_neg (fun hc => hk.1 hc.symm)]
        exact findBlob_filter_none _ _ _ h0
    have : writeMany hash st (d :: rest) = writeMany hash ((writeSmall hash st d).2) rest := by
      simp [writeMany]
    rw [this]
    exact ih _ hstep hk.2

theorem isIndexType_eq_false_of_isManifestType (mt : Option String)
    (h : isManifestType mt = true) : isIndexType mt = false := by
  unfold isManifestType at h
  rw [Bool.or_eq_true] at h
  rcases h with h1 | h1 <;>
    rw [beq_iff_eq] at h1 <;> subst h1 <;> decide

theorem entryStep_nested (table : String → String → Bool)
    (fetch : String → BlobJson) (b : Bool) (root : BlobJson)
    (e : ManifestEntry) (acc : WalkAcc)
    (h1 : isIndexType e.mediaType = true) :
    entryStep table fetch b root e acc = (acc, .error .nestedIndexUnsupported) := by
  simp [entryStep, h1]

theorem entryStep_skip (table : String → String → Bool)
    (fetch : String → BlobJson) (b : Bool) (root : BlobJson)
    (e : ManifestEntry) (acc : WalkAcc)
    (h1 : isIndexType e.mediaType = false)
    (h2 : isManifestType e.mediaType = false) :
    entryStep table fetch b root e acc = (acc, .ok ()) := by
  simp [entryStep, h1, h2]

theorem entryStep_index_manifest (table : String → String → Bool)
    (fetch : String → BlobJson) (root : BlobJson) (e : ManifestEntry)
    (acc : WalkAcc) (cd : String)
    (h1 : isIndexType e.mediaType = false)
    (h2 : isManifestType e.mediaType = true)
    (hcf : (fetch e.digest).configDigest = some cd) :
    entryStep table fetch true root e acc =
      ({ dataKeys := insertSet (insertSet acc.dataKeys e.digest) cd,
         layerDigests := (fetch e.digest).layers.foldl insertSet acc.layerDigests,
         platforms :=
           match entryPlatformKey table e with
           | some k => insertSet acc.platforms k
           | none => acc.platforms,
         manifestFetches := acc.manifestFetches ++ [e.digest],
         configFetches := acc.configFetches ++ [cd] }, .ok ()) := by
  simp only [entryStep, h1, Bool.false_eq_true, if_false, h2, Bool.not_true,
    if_true, hcf, entryPlatformKey]
  rcases e.platform with _ | p
  · simp
  · by_cases hc : p.os != "" && p.architecture != "" && table p.os p.architecture <;>
      simp [hc]

theorem entryStep_index_missing_config (table : String → String → Bool)
    (fetch : String → BlobJson) (root : BlobJson) (e : ManifestEntry)
    (acc : WalkAcc)
    (h1 : isIndexType e.mediaType = false)
    (h2 : isManifestType e.mediaType = true)
    (hcf : (fetch e.digest).configDigest = none) :
    (entryStep table fetch true root e acc).2 = .error .missingConfigDigest := by
  simp [entryStep, h1, h2, hcf]

theorem processEntries_append (table : String → String → Bool)
    (fetch : String → BlobJson) (b : Bool) (root : BlobJson)
    (l₁ l₂ : List ManifestEntry) (acc : WalkAcc) :
    processEntries table fetch b root (l₁ ++ l₂) acc =
      (match processEntries table fetch b root l₁ acc with
       | (a, .ok _) => processEntries table fetch b root l₂ a
       | (a, .error err) => (a, .error err)) := by
  induction l₁ generalizing acc with
  | nil => simp [processEntries]
  | cons e rest ih =>
    simp only [List.cons_append, processEntries]
    rcases he : entryStep table fetch b root e acc with ⟨a1, r1⟩
    cases r1 with
    | ok u => simpa using ih a1
    | error err => simp

theorem processEntries_manifestFetches_ok (table : String → String → Bool)
    (fetch : String → BlobJson) (root : BlobJson)
    (l : List ManifestEntry) (acc acc' : WalkAcc)
    (h : processEntries table fetch true root l acc = (acc', .ok ())) :
    acc'.manifestFetches = acc.manifestFetches ++
      (l.filter (fun e => isManifestType e.mediaType)).map (fun e => e.digest) := by
  induction l generalizing acc with
  | nil =>
    simp only [processEntries, Prod.mk.injEq] at h
    simp [← h.1]
  | cons e rest ih =>
    simp only [processEntries] at h
    by_cases h1 : isIndexType e.mediaType
    · rw [entryStep_nested table fetch true root e acc h1] at h
      exact absurd h (by simp)
    · have h1' : isIndexType e.mediaType = false := Bool.eq_false_iff.mpr h1
      by_cases h2 : isManifestType e.mediaType
      · rcases hcf : (fetch e.digest).configDigest with _ | cd
        · rcases he : entryStep table fetch true root e acc with ⟨a1, r1⟩
          rw [he] at h
          have := entryStep_index_missing_config table fetch root e acc h1' h2 hcf
          rw [he] at this
          simp only at this
          subst this
          exact absurd h (by simp)
        · rw [entryStep_index_manifest table fetch root e acc cd h1' h2 hcf] at h
          rw [ih _ h]
          simp [List.filter_cons, h2]
      · have h2' : isManifestType e.mediaType = false := Bool.eq_false_iff.mpr h2
        rw [entryStep_skip table fetch true root e acc h1' h2'] at h
        rw [ih _ h]
        simp [List.filter_cons, h2']

theorem processEntries_platforms_index (table : String → String → Bool)
    (fetch : String → BlobJson) (root : BlobJson)
    (l : List ManifestEntry) (acc acc' : WalkAcc)
    (h : processEntries table fetch true root l acc = (acc', .ok ())) :
    acc'.platforms = platformFold table l acc.platforms := by
  induction l generalizing acc with
  | nil =>
    simp only [processEntries, Prod.mk.injEq] at h
    simp [← h.1, platformFold]
  | cons e rest ih =>
    simp only [processEntries] at h
    by_cases h1 : isIndexType e.mediaType
    · rw [entryStep_nested table fetch true root e acc h1] at h
      exact absurd h (by simp)
    · have h1' : isIndexType e.mediaType = false := Bool.eq_false_iff.mpr h1
      by_cases h2 : isManifestType e.mediaType
      · rcases hcf : (fetch e.digest).configDigest with _ | cd
        · rcases he : entryStep table fetch true root e acc with ⟨a1, r1⟩
          rw [he] at h
          have := entryStep_index_missing_config table fetch root e acc h1' h2 hcf
          rw [he] at this
          simp only at this
          subst this
          exact absurd h (by simp)
        · rw [entryStep_index_manifest table fetch root e acc cd h1' h2 hcf] at h
          rw [ih _ h]
          simp only [platformFold, List.filter_cons, h2, if_true,
            List.filterMap_cons]
          rcases entryPlatformKey table e with _ | k <;> simp
      · have h2' : isManifestType e.mediaType = false := Bool.eq_false_iff.mpr h2
        rw [entryStep_skip table fetch true root e acc h1' h2'] at h
        rw [ih _ h]
        simp [platformFold, List.filter_cons, h2']

theorem downloadLayersLog_all_new (existing digests : List String)
    (hnds : (digests.map stripSha256).Nodup)
    (hdisj : ∀ d ∈ digests, stripSha256 d ∉ existing) :
    downloadLayersLog existing digests = digests := by
  induction digests generalizing existing with
  | nil => rfl
  | cons d rest ih =>
    have hmem : stripSha256 d ∉ existing := hdisj d (List.mem_cons_self d rest)
    have hc : existing.contains (stripSha256 d) = false := by
      rw [Bool.eq_false_iff]
      intro hce
      exact hmem (List.elem_iff.mp hce)
    simp only [List.map_cons, List.nodup_cons] at hnds
    simp only [downloadLayersLog, hc, Bool.and_false, Bool.false_eq_true, if_false]
    congr 1
    apply ih
    · exact hnds.2
    · intro d' hd' hmem'
      rcases List.mem_append.mp hmem' with hl | hr
      · exact hdisj d' (List.mem_cons_of_mem d hd') hl
      · rw [List.mem_singleton] at hr
        exact hnds.1 (hr ▸ List.mem_map_of_mem stripSha256 hd')

theorem walkPull_manifest_root (table : String → String → Bool)
    (fetch : String → BlobJson) (root cd : String)
    (hmt : isManifestType (getMediaType (fetch root)) = true)
    (hcd : (fetch root).configDigest = some cd) :
    walkPull table fetch root =
      ({ dataKeys := insertSet [root] cd,
         layerDigests := (fetch root).layers.foldl insertSet [],
         platforms :=
           if (fetch cd).os != "" && (fetch cd).architecture != "" &&
              table (fetch cd).os (fetch cd).architecture then
             [(fetch cd).os ++ "_" ++ (fetch cd).architecture]
           else [],
         manifestFetches := [],
         configFetches := [cd] }, .ok ()) := by
  have hidx : isIndexType (getMediaType (fetch root)) = false :=
    isIndexType_eq_false_of_isManifestType _ hmt
  have e1 : isIndexType (some MEDIA_TYPE_MANIFEST) = false := by decide
  have e2 : isManifestType (some MEDIA_TYPE_MANIFEST) = true := by decide
  unfold walkPull
  simp only [hidx, Bool.false_eq_true, if_false, hmt, if_true]
  simp only [processEntries, entryStep, e1, Bool.false_eq_true, if_false, e2,
    Bool.not_true, Bool.false_eq_true, if_false, Bool.not_false, if_true, hcd,
    initAcc]
  by_cases hcb : (fetch cd).os != "" && (fetch cd).architecture != "" &&
      table (fetch cd).os (fetch cd).architecture <;>
    simp [hcb, insertSet]

/-! ## Claims about the blob store -/

/-- C3: for every byte buffer `d`, `WriteSmall(d)` returns the digest
string `"sha256:" + hex(sha256(d))` and afterwards `Exists` on that
digest is true; on a store populated only by writes, `Exists` on any
digest that has never been written is false. -/
theorem writeSmall_returns_digest_and_exists (hash : List Nat → String)
    (st : StoreState) (d : List Nat) (ds : List (List Nat)) (hhex : String)
    (hfresh : hhex ∉ ds.map hash) :
    (writeSmall hash st d).1 = "sha256:" ++ hash d ∧
    existsBlob (writeSmall hash st d).2 ("sha256:" ++ hash d) = true ∧
    existsBlob (writeMany hash emptyStore ds) ("sha256:" ++ hhex) = false := by
  refine ⟨?_, ?_, ?_⟩
  · unfold writeSmall digestOf
    by_cases he : existsBlob st ("sha256:" ++ hash d) <;> simp [he]
  · unfold writeSmall digestOf
    by_cases he : existsBlob st ("sha256:" ++ hash d)
    · simp [he]
    · simp only [he, Bool.false_eq_true, if_false]
      unfold existsBlob
      rw [blobPath_marker, findBlob_setBlob_self]
      rfl
  · unfold existsBlob
    rw [blobPath_marker,
      findBlob_writeMany_none hash ds emptyStore hhex rfl hfresh]
    rfl

/-- C3 witness: instantiated at the flat hash, one written buffer `[1]`
and the fresh hex `"cc"`. -/
theorem writeSmall_returns_digest_and_exists_witness :
    ("cc" ∉ ([[1]] : List (List Nat)).map hashFlat) ∧
    ((writeSmall hashFlat emptyStore [1]).1 = "sha256:" ++ hashFlat [1] ∧
     existsBlob (writeSmall hashFlat emptyStore [1]).2 ("sha256:" ++ hashFlat [1]) = true ∧
     existsBlob (writeMany hashFlat emptyStore [[1]]) ("sha256:" ++ "cc") = false) :=
  ⟨by decide,
   writeSmall_returns_digest_and_exists hashFlat emptyStore [1] [[1]] "cc" (by decide)⟩

/-- C4: `WriteSmallWithDigest(expectedDigest, data)` returns success
without looking at `data` when a blob at the digest already exists;
otherwise it fails with a digest mismatch and writes nothing when the
recomputed digest disagrees, and writes `data` to the final path when it
agrees. -/
theorem writeSmallWithDigest_cases (hash : List Nat → String) (st : StoreState)
    (digest : String) (data data' : List Nat) :
    (existsBlob st digest = true →
      writeSmallWithDigest hash st digest data = (.ok (), st) ∧
      writeSmallWithDigest hash st digest data =
        writeSmallWithDigest hash st digest data') ∧
    (existsBlob st digest = false → digestOf hash data ≠ digest →
      writeSmallWithDigest hash st digest data = (.error .digestMismatch, st)) ∧
    (existsBlob st digest = false → digestOf hash data = digest →
      writeSmallWithDigest hash st digest data =
        (.ok (), { st with blobs := setBlob st.blobs (blobPath digest) data })) := by
  refine ⟨fun he => ?_, fun he hm => ?_, fun he hm => ?_⟩
  · simp [writeSmallWithDigest, he]
  · simp [writeSmallWithDigest, he, hm]
  · simp [writeSmallWithDigest, he, hm]

/-- C4 witness: the mismatch branch at a fresh store, claimed digest
`"sha256:zz"` and data `[1]` (whose hash is `"aa"`). -/
theorem writeSmallWithDigest_cases_witness :
    existsBlob emptyStore "sha256:zz" = false ∧
    digestOf hashFlat [1] ≠ "sha256:zz" ∧
    writeSmallWithDigest hashFlat emptyStore "sha256:zz" [1] =
      (.error .digestMismatch, emptyStore) :=
  ⟨by decide, by decide,
   (writeSmallWithDigest_cases hashFlat emptyStore "sha256:zz" [1] [1]).2.1
     (by decide) (by decide)⟩

/-- C5 counterexample: when a blob already exists at the digest,
`WriteLarge` with mismatching content returns success (draining the
reader) instead of failing with a digest mismatch, and the stored file
remains at the final path. -/
theorem writeLarge_existing_mismatch_succeeds :
    digestOf hashFlat [2] ≠ "sha256:aa" ∧
    existsBlob stValid "sha256:aa" = true ∧
    writeLarge hashFlat stValid "sha256:aa" [2] = (.ok (), stValid) ∧
    findBlob stValid.blobs (blobPath "sha256:aa") = some [1] := by
  refine ⟨by decide, by decide, rfl, rfl⟩

/-- C5 (amended): provided no blob already exists at the digest,
`WriteLarge` with content hashing to something else fails with a digest
mismatch, no file remains at the final blob path, and no temp file is
left behind. -/
theorem writeLarge_mismatch_no_file (hash : List Nat → String) (st : StoreState)
    (digest : String) (content : List Nat)
    (hne : existsBlob st digest = false)
    (hmis : digestOf hash content ≠ digest) :
    writeLarge hash st digest content = (.error .digestMismatch, st) ∧
    findBlob ((writeLarge hash st digest content).2).blobs (blobPath digest) = none ∧
    ((writeLarge hash st digest content).2).temps = st.temps := by
  have h1 : writeLarge hash st digest content = (.error .digestMismatch, st) := by
    simp [writeLarge, hne, hmis]
  refine ⟨h1, ?_, by rw [h1]⟩
  rw [h1]
  unfold existsBlob at hne
  exact Option.not_isSome_iff_eq_none.mp (by simp [hne])

/-- C5 (amended) witness: fresh store, digest `"sha256:zz"`, content `[1]`. -/
theorem writeLarge_mismatch_no_file_witness :
    existsBlob emptyStore "sha256:zz" = false ∧
    digestOf hashFlat [1] ≠ "sha256:zz" ∧
    writeLarge hashFlat emptyStore "sha256:zz" [1] =
      (.error .digestMismatch, emptyStore) :=
  ⟨by decide, by decide,
   (writeLarge_mismatch_no_file hashFlat emptyStore "sha256:zz" [1]
     (by decide) (by decide)).1⟩

/-- C6: when the on-disk file for a digest no longer hashes to that
digest, `ReadSmall` fails with a digest mismatch and removes the file,
and a second `ReadSmall` on the same digest fails with not-found. -/
theorem readSmall_selfheal_then_notFound (hash : List Nat → String)
    (st : StoreState) (digest : String) (data : List Nat)
    (hfind : findBlob st.blobs (blobPath digest) = some data)
    (hmis : digestOf hash data ≠ digest) :
    (readSmall hash st digest).1 = .error .digestMismatch ∧
    findBlob ((readSmall hash st digest).2).blobs (blobPath digest) = none ∧
    readSmall hash ((readSmall hash st digest).2) digest =
      (.error .notFound, (readSmall hash st digest).2) := by
  have h1 : readSmall hash st digest =
      (.error .digestMismatch,
        { st with blobs := eraseBlob st.blobs (blobPath digest) }) := by
    unfold readSmall
    rw [hfind]
    simp [hmis]
  refine ⟨by rw [h1], ?_, ?_⟩
  · rw [h1]
    exact findBlob_eraseBlob_self _ _
  · rw [h1]
    unfold readSmall
    rw [findBlob_eraseBlob_self]

/-- C6 witness: the corrupted store, digest `"sha256:aa"`, content `[2]`. -/
theorem readSmall_selfheal_then_notFound_witness :
    findBlob stCorrupt.blobs (blobPath "sha256:aa") = some [2] ∧
    digestOf hashFlat [2] ≠ "sha256:aa" ∧
    (readSmall hashFlat stCorrupt "sha256:aa").1 = .error .digestMismatch :=
  ⟨by decide, by decide,
   (readSmall_selfheal_then_notFound hashFlat stCorrupt "sha256:aa" [2]
     (by decide) (by decide)).1⟩

/-- C1 counterexample: the validated stream returned by `Open` reports
the digest mismatch at end of stream but the previously-stored corrupted
file is not deleted — it is still on disk when the error is returned. -/
theorem open_stream_mismatch_keeps_file :
    digestOf hashFlat [2] ≠ "sha256:aa" ∧
    openReadAll hashFlat stCorrupt "sha256:aa" =
      (.error .digestMismatch, stCorrupt) ∧
    findBlob stCorrupt.blobs (blobPath "sha256:aa") = some [2] :=
  ⟨by decide, rfl, rfl⟩

/-- C1 (amended): `WriteLarge` removes its temp file and leaves nothing
at the final path, and `ReadSmall` deletes the stored corrupted file,
by the time their digest-mismatch error is returned; the validated
stream returned by `Open` reports the mismatch at end of stream but
leaves the stored file in place. -/
theorem digestMismatch_deletion_behavior (hash : List Nat → String)
    (stW stR : StoreState) (dW dR : String) (content data : List Nat)
    (h1 : existsBlob stW dW = false)
    (h2 : digestOf hash content ≠ dW)
    (h3 : findBlob stR.blobs (blobPath dR) = some data)
    (h4 : digestOf hash data ≠ dR) :
    (writeLarge hash stW dW content = (.error .digestMismatch, stW) ∧
      findBlob stW.blobs (blobPath dW) = none ∧
      stW.temps = stW.temps) ∧
    ((readSmall hash stR dR).1 = .error .digestMismatch ∧
      findBlob ((readSmall hash stR dR).2).blobs (blobPath dR) = none) ∧
    openReadAll hash stR dR = (.error .digestMismatch, stR) := by
  refine ⟨⟨?_, ?_, rfl⟩, ⟨?_, ?_⟩, ?_⟩
  · simp [writeLarge, h1, h2]
  · unfold existsBlob at h1
    exact Option.not_isSome_iff_eq_none.mp (by simp [h1])
  · unfold readSmall
    rw [h3]
    simp [h4]
  · unfold readSmall
    rw [h3]
    simp only [h4, if_neg h4]
    exact findBlob_eraseBlob_self _ _
  · unfold openReadAll
    rw [h3]
    simp [h4]

/-- C1 (amended) witness: a fresh write target and the corrupted store. -/
theorem digestMismatch_deletion_behavior_witness :
    existsBlob emptyStore "sha256:zz" = false ∧
    digestOf hashFlat [1] ≠ "sha256:zz" ∧
    findBlob stCorrupt.blobs (blobPath "sha256:aa") = some [2] ∧
    digestOf hashFlat [2] ≠ "sha256:aa" ∧
    writeLarge hashFlat emptyStore "sha256:zz" [1] =
      (.error .digestMismatch, emptyStore) :=
  ⟨by decide, by decide, by decide, by decide,
   (digestMismatch_deletion_behavior hashFlat emptyStore stCorrupt
     "sha256:zz" "sha256:aa" [1] [2]
     (by decide) (by decide) (by decide) (by decide)).1.1⟩

/-! ## Claims about reference resolution -/

/-- C7: a caller-supplied digest string is treated as valid iff it is
exactly 71 characters long and begins with `"sha256:"`; a string failing
either condition is never used as a digest and (when no digest is
learned) resolution falls through to the tag. -/
theorem digest_validity_resolution (d tag : String) (allowTag : Bool) :
    (validAttrDigest d = true ↔
      (d.data.length = 71 ∧ startsWithSha256 d = true)) ∧
    (validAttrDigest d = false →
      resolveReference d tag allowTag none =
        (if tag.data.length == 0 then .error .invalidReference
         else .ok ⟨tag, false⟩)) ∧
    validAttrDigest "sha256:abc" = false ∧
    (d.data.length = 71 → startsWithSha256 d = false →
      validAttrDigest d = false) := by
  refine ⟨?_, fun hv => ?_, by decide, fun hl hp => ?_⟩
  · simp [validAttrDigest, Bool.and_eq_true, beq_iff_eq]
  · cases allowTag <;> simp [resolveReference, hv]
  · simp [validAttrDigest, hl, hp]

/-- C7 witness: `"sha256:abc"` (wrong length) and a 71-character string
without the marker both fall through to the tag. -/
theorem digest_validity_resolution_witness :
    validAttrDigest "sha256:abc" = false ∧
    allA71.data.length = 71 ∧
    startsWithSha256 allA71 = false ∧
    resolveReference "sha256:abc" "latest" false none =
      (if ("latest" : String).data.length == 0 then Except.error PullError.invalidReference
       else Except.ok ⟨"latest", false⟩) ∧
    validAttrDigest allA71 = false :=
  ⟨by decide, by decide, by decide,
   (digest_validity_resolution "sha256:abc" "latest" false).2.1 (by decide),
   (digest_validity_resolution allA71 "latest" false).2.2.2 (by decide) (by decide)⟩

/-- C10: a digest learned from a tag via the external tool is accepted
whenever the tool's trimmed stdout is non-empty and starts with
`"sha256:"` — without the 71-character rule applied to caller-supplied
digests — and the learned string becomes the canonical (digest-form)
reference for all subsequent fetches. -/
theorem learned_digest_accepted (stdout digestAttr tagAttr : String)
    (hne : 0 < (strip stdout).data.length)
    (hpre : startsWithSha256 (strip stdout) = true)
    (hinv : validAttrDigest digestAttr = false) :
    learnDigestFromTagImgTool 0 stdout = .ok (strip stdout) ∧
    resolveReference digestAttr tagAttr true (some (strip stdout)) =
      .ok ⟨strip stdout, true⟩ := by
  have hlen : 0 < (strip stdout).length := hne
  have hz : ¬(strip stdout).length = 0 := Nat.pos_iff_ne_zero.mp hlen
  constructor
  · simp [learnDigestFromTagImgTool, hne, hpre, hlen, hz]
  · simp [resolveReference, hinv, hlen, hz]

/-- C10 witness: stdout `" sha256:abc\n"` trims to `"sha256:abc"`, which
is 10 characters long (not 71) and is nevertheless accepted and becomes
the canonical reference. -/
theorem learned_digest_accepted_witness :
    0 < (strip " sha256:abc\n").data.length ∧
    startsWithSha256 (strip " sha256:abc\n") = true ∧
    validAttrDigest "" = false ∧
    strip " sha256:abc\n" = "sha256:abc" ∧
    ("sha256:abc" : String).data.length ≠ 71 ∧
    learnDigestFromTagImgTool 0 " sha256:abc\n" = .ok (strip " sha256:abc\n") ∧
    resolveReference "" "latest" true (some (strip " sha256:abc\n")) =
      .ok ⟨strip " sha256:abc\n", true⟩ :=
  ⟨by decide, by decide, by decide, by decide, by decide,
   (learned_digest_accepted " sha256:abc\n" "" "latest"
     (by decide) (by decide) (by decide)).1,
   (learned_digest_accepted " sha256:abc\n" "" "latest"
     (by decide) (by decide) (by decide)).2⟩

/-! ## Claims about the manifest graph walker and layer materialization -/

/-- C2 counterexample: on an index whose single child entry carries no
platform, the walker fetches the child's config blob — which names a
platform recognized by the constraint table — yet records no platform
at all: the config fallback claimed for index children does not happen. -/
theorem index_child_config_platform_ignored :
    (walkPull tableLinux fetchNoPlat "idx").2 = .ok () ∧
    (walkPull tableLinux fetchNoPlat "idx").1.configFetches = ["c1"] ∧
    (fetchNoPlat "c1").os = "linux" ∧
    (fetchNoPlat "c1").architecture = "amd64" ∧
    tableLinux "linux" "amd64" = true ∧
    (walkPull tableLinux fetchNoPlat "idx").1.platforms = [] :=
  ⟨rfl, rfl, rfl, rfl, rfl, rfl⟩

/-- C2 (amended): the walker records the platform from the index entry
when `os` and `arch` are both non-empty and recognized by the
platform-constraint table; the platform of a fetched config blob is
recorded only when the root itself is a single manifest — for index
children the config platform is never recorded, even when the index
entry carries no platform. -/
theorem walker_platform_recording (table : String → String → Bool)
    (fetch : String → BlobJson) (root cd : String) (acc : WalkAcc) :
    (isIndexType (getMediaType (fetch root)) = true →
      walkPull table fetch root = (acc, .ok ()) →
      acc.platforms = platformFold table (fetch root).manifests []) ∧
    (isManifestType (getMediaType (fetch root)) = true →
      (fetch root).configDigest = some cd →
      walkPull table fetch root = (acc, .ok ()) →
      acc.platforms =
        (if (fetch cd).os != "" && (fetch cd).architecture != "" &&
            table (fetch cd).os (fetch cd).architecture then
          [(fetch cd).os ++ "_" ++ (fetch cd).architecture]
        else [])) := by
  constructor
  · intro hidx hwalk
    unfold walkPull at hwalk
    simp only [hidx, if_true] at hwalk
    have := processEntries_platforms_index table fetch (fetch root)
      (fetch root).manifests (initAcc root) acc hwalk
    simpa [initAcc] using this
  · intro hmt hcd hwalk
    rw [walkPull_manifest_root table fetch root cd hmt hcd] at hwalk
    have ha := congrArg (fun x => x.1.platforms) hwalk
    simpa using ha.symm

/-- C2 (amended) witness: the two-platform index records exactly the
platforms of its index entries. -/
theorem walker_platform_recording_witness :
    isIndexType (getMediaType (fetchTwoArch "idx")) = true ∧
    walkPull tableLinux fetchTwoArch "idx" = (accTwoArch, .ok ()) ∧
    accTwoArch.platforms = platformFold tableLinux (fetchTwoArch "idx").manifests [] :=
  ⟨by decide, rfl,
   (walker_platform_recording tableLinux fetchTwoArch "idx" "c1" accTwoArch).1
     (by decide) rfl⟩

/-- C8: when the root is an index and one of its entries is itself
index-typed, the walk fails with the nested-index error at that entry:
the final fetch log is the one accumulated over the earlier entries
(exactly the manifest-typed entries before the offending one), so
neither the offending entry nor any later child is fetched. -/
theorem nested_index_fails_before_further_fetches (table : String → String → Bool)
    (fetch : String → BlobJson) (rootDigest : String)
    (pre post : List ManifestEntry) (bad : ManifestEntry) (acc1 : WalkAcc)
    (hroot : isIndexType (getMediaType (fetch rootDigest)) = true)
    (hman : (fetch rootDigest).manifests = pre ++ bad :: post)
    (hbad : isIndexType bad.mediaType = true)
    (hpre : processEntries table fetch true (fetch rootDigest) pre
      (initAcc rootDigest) = (acc1, .ok ())) :
    walkPull table fetch rootDigest = (acc1, .error .nestedIndexUnsupported) ∧
    acc1.manifestFetches =
      (pre.filter (fun e => isManifestType e.mediaType)).map (fun e => e.digest) := by
  constructor
  · unfold walkPull
    simp only [hroot, if_true]
    rw [hman, processEntries_append, hpre]
    simp only [processEntries,
      entryStep_nested table fetch true (fetch rootDigest) bad acc1 hbad]
  · have := processEntries_manifestFetches_ok table fetch (fetch rootDigest)
      pre (initAcc rootDigest) acc1 hpre
    simpa [initAcc] using this

/-- C8 witness: an index `m1, <nested index>, m2`: the walk fails with
the nested-index error having fetched only `m1`. -/
theorem nested_index_fails_before_further_fetches_witness :
    isIndexType (getMediaType (fetchNested "idx")) = true ∧
    isIndexType (some MEDIA_TYPE_INDEX) = true ∧
    processEntries tableLinux fetchNested true (fetchNested "idx")
      [⟨some MEDIA_TYPE_MANIFEST, "m1", none⟩] (initAcc "idx") =
      (accNestedPre, .ok ()) ∧
    walkPull tableLinux fetchNested "idx" =
      (accNestedPre, .error .nestedIndexUnsupported) ∧
    accNestedPre.manifestFetches = ["m1"] :=
  ⟨by decide, by decide, rfl,
   (nested_index_fails_before_further_fetches tableLinux fetchNested "idx"
     [⟨some MEDIA_TYPE_MANIFEST, "m1", none⟩]
     [⟨some MEDIA_TYPE_MANIFEST, "m2", none⟩]
     ⟨some MEDIA_TYPE_INDEX, "nested", none⟩ accNestedPre
     (by decide) rfl (by decide) rfl).1,
   by decide⟩

/-- C9: the shallow and lazy policies issue no layer fetches at all; the
eager policy fetches every distinct digest of the de-duplicated layer
set exactly once (even when a digest was referenced by several child
manifests); and the manifests and configs fetched (the whole walk
accumulator) are the same under every policy. -/
theorem layer_policy_behavior (table : String → String → Bool)
    (fetch : String → BlobJson) (root : String) (acc : WalkAcc)
    (hwalk : walkPull table fetch root = (acc, .ok ()))
    (hnds : (acc.layerDigests.map stripSha256).Nodup)
    (hdisj : ∀ d ∈ acc.layerDigests,
      stripSha256 d ∉ acc.dataKeys.map stripSha256) :
    pullImpl table fetch .shallow root = .ok ⟨acc, []⟩ ∧
    pullImpl table fetch .lazy root = .ok ⟨acc, []⟩ ∧
    pullImpl table fetch .eager root = .ok ⟨acc, acc.layerDigests⟩ ∧
    (∀ d ∈ acc.layerDigests, acc.layerDigests.count d = 1) ∧
    (∀ p : LayerHandling, ∃ o : PullOutcome,
      pullImpl table fetch p root = .ok o ∧ o.acc = acc) := by
  have hlog : downloadLayersLog (acc.dataKeys.map stripSha256) acc.layerDigests =
      acc.layerDigests :=
    downloadLayersLog_all_new _ _ hnds hdisj
  have hs : pullImpl table fetch .shallow root = .ok ⟨acc, []⟩ := by
    simp [pullImpl, hwalk]
  have hl : pullImpl table fetch .lazy root = .ok ⟨acc, []⟩ := by
    simp [pullImpl, hwalk]
  have he : pullImpl table fetch .eager root = .ok ⟨acc, acc.layerDigests⟩ := by
    simp [pullImpl, hwalk, hlog]
  refine ⟨hs, hl, he, ?_, ?_⟩
  · intro d hd
    exact List.count_eq_one_of_mem hnds.of_map hd
  · intro p
    cases p
    · exact ⟨_, hs, rfl⟩
    · exact ⟨_, he, rfl⟩
    · exact ⟨_, hl, rfl⟩

/-- C9 witness: the two-platform index with shared layer `"l2"` —
shallow issues no layer fetches, eager fetches `l1, l2, l3` once each. -/
theorem layer_policy_behavior_witness :
    walkPull tableLinux fetchTwoArch "idx" = (accTwoArch, .ok ()) ∧
    (accTwoArch.layerDigests.map stripSha256).Nodup ∧
    (∀ d ∈ accTwoArch.layerDigests,
      stripSha256 d ∉ accTwoArch.dataKeys.map stripSha256) ∧
    pullImpl tableLinux fetchTwoArch .shallow "idx" = .ok ⟨accTwoArch, []⟩ ∧
    pullImpl tableLinux fetchTwoArch .eager "idx" =
      .ok ⟨accTwoArch, accTwoArch.layerDigests⟩ :=
  ⟨rfl, by decide, by decide,
   (layer_policy_behavior tableLinux fetchTwoArch "idx" accTwoArch
     rfl (by decide) (by decide)).1,
   (layer_policy_behavior tableLinux fetchTwoArch "idx" accTwoArch
     rfl (by decide) (by decide)).2.2.1⟩

end RulesImg
